import Mathlib

/-!
# Verification of the associative memory store (`memory_system.py`)

A shallow embedding of the `MemoryNetwork` class and its operations.
Python floats are modelled as exact rationals (`ℚ`); Python `dict`s are
modelled as insertion-ordered association lists (matching CPython's
insertion-ordered dictionaries, where updating an existing key keeps its
position); Python `set`s are modelled as duplicate-free lists.  Fallible
operations (`KeyError`, `ValueError` from `list.remove` and
`datetime.replace`) are modelled with `Except String`.  `datetime.now()`
is threaded as an explicit `now` argument of each operation.

Modelling notes:
* `ℚ` division by zero yields `0` in Lean while Python raises
  `ZeroDivisionError` (reachable only in `contextSim` when both context
  dictionaries are empty); no theorem below exercises that case.
* `hash(content)` in the identifier `f"mem_{len}_{hash(content)}"` is
  modelled by embedding the content string itself: equal contents always
  collide (true in Python for any hash seed), distinct contents are
  assumed not to collide.
* `defaultdict` bucket reads inside `retrieve_memories` are modelled as
  pure default lookups; the materialisation of empty buckets performed by
  CPython's `defaultdict.__getitem__` is observationally irrelevant to
  every membership property stated below.
-/

namespace MemorySystem

/-- Naive `datetime.datetime` to one-second resolution. -/
structure DateTime where
  year : Nat
  month : Nat
  day : Nat
  hour : Nat
  minute : Nat
  second : Nat
deriving DecidableEq, Repr

/-- Days since 1970-01-01 in the proleptic Gregorian calendar
(civil-from-days algorithm), as used by Python `datetime` subtraction. -/
def DateTime.toDays (d : DateTime) : Int :=
  let y : Int := if d.month ≤ 2 then (d.year : Int) - 1 else (d.year : Int)
  let era : Int := y / 400
  let yoe : Int := y - era * 400
  let mp : Int := if d.month > 2 then (d.month : Int) - 3 else (d.month : Int) + 9
  let doy : Int := (153 * mp + 2) / 5 + (d.day : Int) - 1
  let doe : Int := yoe * 365 + yoe / 4 - yoe / 100 + doy
  era * 146097 + doe - 719468

/-- Seconds since the epoch; differences agree with
`(t1 - t2).total_seconds()` on whole-second datetimes. -/
def DateTime.toSec (d : DateTime) : Int :=
  d.toDays * 86400 + (d.hour : Int) * 3600 + (d.minute : Int) * 60 + (d.second : Int)

/-- `(a - b).total_seconds()` as a rational. -/
def secondsBetween (a b : DateTime) : ℚ :=
  ((a.toSec - b.toSec : Int) : ℚ)

def pad2 (n : Nat) : String :=
  if n < 10 then "0" ++ toString n else toString n

def pad4 (n : Nat) : String :=
  if n < 10 then "000" ++ toString n
  else if n < 100 then "00" ++ toString n
  else if n < 1000 then "0" ++ toString n
  else toString n

/-- Format `timestamp.strftime("%Y%m%d%H")`. -/
def DateTime.hourKey (d : DateTime) : String :=
  pad4 d.year ++ pad2 d.month ++ pad2 d.day ++ pad2 d.hour

/-- Python `round`: round half to even. -/
def roundHalfEven (q : ℚ) : Int :=
  let f : Int := ⌊q⌋
  let r : ℚ := q - (f : ℚ)
  if r < 1/2 then f
  else if 1/2 < r then f + 1
  else if f % 2 = 0 then f else f + 1

/-- Key `round(v * 10) / 10`, the discretised emotional-index key. -/
def emotionKey (v : ℚ) : ℚ :=
  ((roundHalfEven (v * 10) : ℚ)) / 10

/-! ### Python `dict` (insertion-ordered association list) and `set` helpers -/

def dictLookup {κ β : Type} [DecidableEq κ] : List (κ × β) → κ → Option β
  | [], _ => none
  | (k1, v) :: t, k => if k1 = k then some v else dictLookup t k

def dictContains {κ β : Type} [DecidableEq κ] (l : List (κ × β)) (k : κ) : Bool :=
  (dictLookup l k).isSome

def dictGetD {κ β : Type} [DecidableEq κ] (l : List (κ × β)) (k : κ) (d : β) : β :=
  (dictLookup l k).getD d

/-- Assignment `d[k] = v`: updating an existing key keeps its position, a new key is
appended (CPython insertion-order semantics). -/
def dictInsert {κ β : Type} [DecidableEq κ] : List (κ × β) → κ → β → List (κ × β)
  | [], k, v => [(k, v)]
  | (k1, v1) :: t, k, v => if k1 = k then (k, v) :: t else (k1, v1) :: dictInsert t k v

/-- Deletion `del d[k]`: raises `KeyError` when the key is absent. -/
def dictDelete {κ β : Type} [DecidableEq κ] : List (κ × β) → κ → Except String (List (κ × β))
  | [], _ => .error "KeyError"
  | (k1, v1) :: t, k =>
    if k1 = k then .ok t else (dictDelete t k).map (fun t1 => (k1, v1) :: t1)

/-- Insertion `s.add(a)` on a duplicate-free list. -/
def setAdd {α : Type} [DecidableEq α] (s : List α) (a : α) : List α :=
  if a ∈ s then s else s ++ [a]

/-- Removal `s.discard(a)`. -/
def setDiscard {α : Type} [DecidableEq α] (s : List α) (a : α) : List α :=
  s.filter (fun x => decide (x ≠ a))

/-- Union `s.update(t)`. -/
def setUnion {α : Type} [DecidableEq α] (s t : List α) : List α :=
  t.foldl setAdd s

/-- Intersection `s & t`, keeping the left operand's order (deterministic rendering of
CPython's hash-ordered sets; set contents are identical). -/
def setInter {α : Type} [DecidableEq α] (s t : List α) : List α :=
  s.filter (fun x => decide (x ∈ t))

/-- Removal `list.remove(a)`: drops the first occurrence, raises `ValueError` when
absent. -/
def listRemoveFirst {α : Type} [DecidableEq α] : List α → α → Except String (List α)
  | [], _ => .error "ValueError"
  | x :: t, a => if x = a then .ok t else (listRemoveFirst t a).map (fun t1 => x :: t1)

/-- Case-insensitive substring test, `needle in haystack` after `.lower()`,
over explicit character lists. -/
def containsSub (need : List Char) : List Char → Bool
  | [] => need.isEmpty
  | c :: t => need.isPrefixOf (c :: t) || containsSub need t

def lowerChars (s : String) : List Char :=
  s.toList.map Char.toLower

/-! ### Data model -/

/-- The record type `MemoryTrace`. -/
structure MemoryTrace where
  content : String
  timestamp : DateTime
  importance : ℚ
  emotional_valence : ℚ
  context : List (String × String)
  tags : List String
  retrieval_count : Int
  last_accessed : Option DateTime
  associations : List String
deriving DecidableEq, Repr

/-- Validation `MemoryTrace.__post_init__`: constructing a record validates its fields
(type-shape checks of the Python code are enforced statically here; the
value checks are kept in source order). -/
def mkMemoryTrace (content : String) (timestamp : DateTime)
    (importance emotional_valence : ℚ)
    (context : List (String × String)) (tags : List String)
    (retrieval_count : Int := 0) (last_accessed : Option DateTime := none)
    (associations : Option (List String) := none) : Except String MemoryTrace :=
  if content = "" then
    .error "Content must be a non-empty string"
  else if ¬(0 ≤ importance ∧ importance ≤ 1) then
    .error "Importance must be a float between 0 and 1"
  else if ¬(-1 ≤ emotional_valence ∧ emotional_valence ≤ 1) then
    .error "Emotional valence must be a float between -1 and 1"
  else if retrieval_count < 0 then
    .error "Retrieval count cannot be negative"
  else
    .ok { content := content, timestamp := timestamp, importance := importance,
          emotional_valence := emotional_valence, context := context, tags := tags,
          retrieval_count := retrieval_count, last_accessed := last_accessed,
          associations := associations.getD [] }

/-- The compound filter `MemoryQuery`. -/
structure MemoryQuery where
  content : Option String := none
  context : Option (List (String × String)) := none
  time_range : Option (DateTime × DateTime) := none
  tags : Option (List String) := none
  emotional_range : Option (ℚ × ℚ) := none
  importance_threshold : Option ℚ := none
deriving DecidableEq, Repr

/-- The store state, as initialised by `MemoryNetwork.__init__`. -/
structure MemoryNetwork where
  memories : List (String × MemoryTrace) := []
  capacity : Nat := 10000
  context_index : List (String × List String) := []
  temporal_index : List (String × List String) := []
  emotional_index : List (ℚ × List String) := []
  tag_index : List (String × List String) := []
  importance_threshold : ℚ := 3/10
  association_strength : List ((String × String) × ℚ) := []
deriving DecidableEq, Repr

/-- Identifier generation, `mem_` plus the record count plus the content
hash (hash modelled by the content itself, see the header note). -/
def memId (n : Nat) (content : String) : String :=
  "mem_" ++ toString n ++ "_" ++ content

/-! ### Association strength (`_calculate_association_strength`) -/

/-- Context similarity: `|shared items| / max(len(c1), len(c2))`. -/
def contextSim (m1 m2 : MemoryTrace) : ℚ :=
  ((m1.context.filter (fun p => decide (p ∈ m2.context))).length : ℚ) /
    ((max m1.context.length m2.context.length : Nat) : ℚ)

/-- Tag similarity: `|shared| / max(|t1|, |t2|)` when both tag sets are
non-empty, else `0`. -/
def tagSim (m1 m2 : MemoryTrace) : ℚ :=
  if m1.tags ≠ [] ∧ m2.tags ≠ [] then
    ((m1.tags.filter (fun t => decide (t ∈ m2.tags))).length : ℚ) /
      ((max m1.tags.length m2.tags.length : Nat) : ℚ)
  else 0

/-- Temporal proximity: `1 / (1 + |Δt| / 3600)`. -/
def temporalSim (m1 m2 : MemoryTrace) : ℚ :=
  1 / (1 + |secondsBetween m1.timestamp m2.timestamp| / 3600)

/-- Emotional similarity as the source computes it:
`1 - abs(v1 - v2)` (note: no division by 2). -/
def emotionalSim (m1 m2 : MemoryTrace) : ℚ :=
  1 - |m1.emotional_valence - m2.emotional_valence|

/-- Modelled from the spec: `emotional_similarity` = 1 − |r.valence −
o.valence| / 2 — the formula the specification states, for comparison with
the source's `emotionalSim`. -/
def specEmotionalSim (m1 m2 : MemoryTrace) : ℚ :=
  1 - |m1.emotional_valence - m2.emotional_valence| / 2

/-- The weighted combination computed by `_calculate_association_strength`. -/
def calcAssociationStrength (m1 m2 : MemoryTrace) : ℚ :=
  (3/10) * contextSim m1 m2 + (3/10) * tagSim m1 m2 +
    (1/5) * temporalSim m1 m2 + (1/5) * emotionalSim m1 m2

/-! ### Eviction score (`_manage_capacity` inner computation) -/

/-- The per-record eviction score the source computes:
`importance * 0.4 + (1/(1 + seconds_since_creation)) * 0.3 +
(retrieval_count / 10) * 0.3` (note: no `min(retrieval_count, 10)`). -/
def memoryScore (m : MemoryTrace) (now : DateTime) : ℚ :=
  m.importance * (2/5) + (1 / (1 + secondsBetween now m.timestamp)) * (3/10) +
    ((m.retrieval_count : ℚ) / 10) * (3/10)

/-- Modelled from the spec: `score = 0.4*importance + 0.3*recency_factor +
0.3*min(retrieval_count, 10)/10`, for comparison with the source's
`memoryScore`. -/
def specMemoryScore (m : MemoryTrace) (now : DateTime) : ℚ :=
  (2/5) * m.importance + (3/10) * (1 / (1 + secondsBetween now m.timestamp)) +
    (3/10) * (min ((m.retrieval_count : ℚ)) 10 / 10)

/-! ### Index maintenance -/

/-- Add `id` to the bucket at `k` (`defaultdict` read then `set.add`). -/
def indexAdd {κ : Type} [DecidableEq κ] (idx : List (κ × List String)) (k : κ)
    (id : String) : List (κ × List String) :=
  dictInsert idx k (setAdd (dictGetD idx k []) id)

/-- Remove `id` from the bucket at `k` (`defaultdict` read then
`set.discard`; an absent bucket is materialised empty, as in CPython). -/
def indexDiscard {κ : Type} [DecidableEq κ] (idx : List (κ × List String)) (k : κ)
    (id : String) : List (κ × List String) :=
  dictInsert idx k (setDiscard (dictGetD idx k []) id)

/-- Index maintenance `_update_indices`. -/
def updateIndices (s : MemoryNetwork) (memory_id : String) (m : MemoryTrace) :
    MemoryNetwork :=
  { s with
    context_index :=
      m.context.foldl (fun idx p => indexAdd idx (p.1 ++ ":" ++ p.2) memory_id)
        s.context_index,
    temporal_index := indexAdd s.temporal_index m.timestamp.hourKey memory_id,
    emotional_index :=
      indexAdd s.emotional_index (emotionKey m.emotional_valence) memory_id,
    tag_index := m.tags.foldl (fun idx t => indexAdd idx t memory_id) s.tag_index }

/-- Association creation `_create_associations`: the freshly stored record at `memory_id` is
compared against every other stored record; for each one whose strength
exceeds `0.3`, both records gain the other's identifier and both ordered
strengths are recorded.  Python mutates the two record objects in place
while iterating; the value-semantics rendering below first collects the
hits (strength does not read the mutated `associations` field, so the
collected values coincide with the in-place computation) and then applies
all updates. -/
def createAssociations (s : MemoryNetwork) (memory_id : String) : MemoryNetwork :=
  match dictLookup s.memories memory_id with
  | none => s
  | some m =>
    let hits : List (String × ℚ) :=
      s.memories.filterMap (fun p =>
        if p.1 ≠ memory_id then
          let strength := calcAssociationStrength m p.2
          if strength > 3/10 then some (p.1, strength) else none
        else none)
    let hitIds := hits.map Prod.fst
    let memories1 := s.memories.map (fun p =>
      if p.1 = memory_id then
        (p.1, { p.2 with associations := p.2.associations ++ hitIds })
      else if p.1 ∈ hitIds then
        (p.1, { p.2 with associations := p.2.associations ++ [memory_id] })
      else p)
    let strength1 := hits.foldl (fun st h =>
      dictInsert (dictInsert st (memory_id, h.1) h.2) (h.1, memory_id) h.2)
      s.association_strength
    { s with memories := memories1, association_strength := strength1 }

/-- One iteration of the association-cleanup loop of `_remove_memory`:
`if associated_id in self.memories:` remove the evicted identifier from
the peer's `associations` (`list.remove`, may raise `ValueError`) and
delete both ordered strengths (`del`, may raise `KeyError`). -/
def removeAssocStep (memory_id : String) (s : MemoryNetwork) (oid : String) :
    Except String MemoryNetwork :=
  match dictLookup s.memories oid with
  | none => pure s
  | some om => do
    let newAssoc ← listRemoveFirst om.associations memory_id
    let s := { s with
      memories := dictInsert s.memories oid { om with associations := newAssoc } }
    let st ← dictDelete s.association_strength (memory_id, oid)
    let st ← dictDelete st (oid, memory_id)
    pure { s with association_strength := st }

/-- The index-removal phase of `_remove_memory`: discard the identifier
from all four dimension indices (the buckets derived from the record's
fields). -/
def deindexAll (s : MemoryNetwork) (memory_id : String) (m : MemoryTrace) :
    MemoryNetwork :=
  let s := { s with
    context_index :=
      m.context.foldl (fun idx (p : String × String) =>
        indexDiscard idx (p.1 ++ ":" ++ p.2) memory_id) s.context_index }
  let s := { s with
    temporal_index := indexDiscard s.temporal_index m.timestamp.hourKey memory_id }
  let s := { s with
    emotional_index :=
      indexDiscard s.emotional_index (emotionKey m.emotional_valence) memory_id }
  { s with
    tag_index := m.tags.foldl (fun idx t => indexDiscard idx t memory_id) s.tag_index }

/-- Eviction `_remove_memory`: deindex, clean up associations, then delete
the record; `list.remove` and `del` are fallible exactly where Python
raises. -/
def removeMemory (s : MemoryNetwork) (memory_id : String) :
    Except String MemoryNetwork := do
  match dictLookup s.memories memory_id with
  | none => .error "KeyError"
  | some m =>
    let s1 := deindexAll s memory_id m
    let s2 ← m.associations.foldlM (removeAssocStep memory_id) s1
    let mems ← dictDelete s2.memories memory_id
    pure { s2 with memories := mems }

/-- The ascending eviction order `key=lambda x: x[1]`. -/
def scoreOrder : (String × ℚ) → (String × ℚ) → Prop :=
  fun a b => a.2 ≤ b.2

instance : DecidableRel scoreOrder := fun a b => by
  unfold scoreOrder; infer_instance

/-- Capacity management `_manage_capacity`: when the record count exceeds the capacity, the
`count - capacity` lowest-scoring records are removed (Python's `sorted`
is stable; `List.insertionSort` is the same stable sort). -/
def manageCapacity (s : MemoryNetwork) (now : DateTime) :
    Except String MemoryNetwork :=
  if s.memories.length > s.capacity then
    let memory_scores := s.memories.map (fun p => (p.1, memoryScore p.2 now))
    let victims := (List.insertionSort scoreOrder memory_scores).take
      (s.memories.length - s.capacity)
    victims.foldlM (fun s p => removeMemory s p.1) s
  else pure s

/-- The pre-eviction phase of `store_memory`: generate the identifier from
the current record count and the content hash, store the record, update
the indices, create the associations. -/
def storePre (s : MemoryNetwork) (m : MemoryTrace) : MemoryNetwork :=
  let memory_id := memId s.memories.length m.content
  let s1 := { s with memories := dictInsert s.memories memory_id m }
  let s2 := updateIndices s1 memory_id m
  createAssociations s2 memory_id

/-- Insertion `store_memory`: store, index and associate, then let the
capacity manager run, and return the generated identifier. -/
def storeMemory (s : MemoryNetwork) (m : MemoryTrace) (now : DateTime) :
    Except String (String × MemoryNetwork) := do
  let s2 ← manageCapacity (storePre s m) now
  pure (memId s.memories.length m.content, s2)

/-- Validate-then-store: what a producer does when it builds a record and
hands it to the store (`MemoryTrace(...)` then `store_memory`). -/
def storeAttempt (s : MemoryNetwork) (now : DateTime) (content : String)
    (timestamp : DateTime) (importance emotional_valence : ℚ)
    (context : List (String × String)) (tags : List String) :
    Except String (String × MemoryNetwork) := do
  let m ← mkMemoryTrace content timestamp importance emotional_valence context tags
  storeMemory s m now

/-! ### Query engine (`retrieve_memories`) -/

/-- The temporal range scan: starting at `start`, add the hour bucket and
advance with `current_time.replace(hour=current_time.hour + 1)`, which
raises `ValueError` when the new hour leaves `0..23`. -/
def temporalScan (temporal_index : List (String × List String)) (endT : DateTime)
    (cur : DateTime) (acc : List String) : Except String (List String) :=
  if cur.toSec ≤ endT.toSec then
    let acc := setUnion acc (dictGetD temporal_index cur.hourKey [])
    if _h : cur.hour + 1 ≤ 23 then
      temporalScan temporal_index endT { cur with hour := cur.hour + 1 } acc
    else .error "ValueError: hour must be in 0..23"
  else .ok acc
termination_by 24 - cur.hour
decreasing_by simp; omega

/-- Stepping `np.arange(start, stop, step)` for a positive step: `ceil((stop -
start)/step)` evenly spaced values from `start`. -/
def arange (start stop step : ℚ) : List ℚ :=
  (List.range (⌈(stop - start) / step⌉).toNat).map (fun i => start + (i : ℚ) * step)

def allIds (mems : List (String × MemoryTrace)) : List String :=
  mems.map Prod.fst

def contentMatches (mems : List (String × MemoryTrace)) (c : String) : List String :=
  (mems.filter (fun p => containsSub (lowerChars c) (lowerChars p.2.content))).map Prod.fst

def importanceMatches (mems : List (String × MemoryTrace)) (t : ℚ) : List String :=
  (mems.filter (fun p => decide (t ≤ p.2.importance))).map Prod.fst

/-- The filter cascade of `retrieve_memories`: each given filter's match
set is intersected into the running candidate set (a filter bound to a
falsy value — empty string, empty dict, empty set — is skipped, as in
Python; `importance_threshold` is compared with `is not None`). -/
def applyFilters (s : MemoryNetwork) (q : MemoryQuery) :
    Except String (List String) := do
  let cand := allIds s.memories
  let cand := match q.content with
    | some c => if c ≠ "" then setInter cand (contentMatches s.memories c) else cand
    | none => cand
  let cand := match q.context with
    | some ctx =>
      if ctx ≠ [] then
        setInter cand (ctx.foldl (fun acc p =>
          setUnion acc (dictGetD s.context_index (p.1 ++ ":" ++ p.2) [])) [])
      else cand
    | none => cand
  let cand ← match q.time_range with
    | some r => do
      let temporal_matches ← temporalScan s.temporal_index r.2 r.1 []
      pure (setInter cand temporal_matches)
    | none => pure cand
  let cand := match q.tags with
    | some ts =>
      if ts ≠ [] then
        setInter cand (ts.foldl (fun acc t => setUnion acc (dictGetD s.tag_index t [])) [])
      else cand
    | none => cand
  let cand := match q.emotional_range with
    | some r =>
      setInter cand ((arange r.1 (r.2 + 1/10) (1/10)).foldl (fun acc v =>
        setUnion acc (dictGetD s.emotional_index (emotionKey v) [])) [])
    | none => cand
  let cand := match q.importance_threshold with
    | some t => setInter cand (importanceMatches s.memories t)
    | none => cand
  pure cand

/-- The result order `key=lambda x: (-importance, -retrieval_count)`. -/
def retrievalOrder : (String × MemoryTrace) → (String × MemoryTrace) → Prop :=
  fun a b =>
    b.2.importance < a.2.importance ∨
      (a.2.importance = b.2.importance ∧ b.2.retrieval_count ≤ a.2.retrieval_count)

instance : DecidableRel retrievalOrder := fun a b => by
  unfold retrievalOrder; infer_instance

/-- The per-record retrieval side effect: `retrieval_count += 1`,
`last_accessed = datetime.now()`. -/
def bump (m : MemoryTrace) (now : DateTime) : MemoryTrace :=
  { m with retrieval_count := m.retrieval_count + 1, last_accessed := some now }

/-- Result construction of `retrieve_memories` from the filtered candidate
set: build the `(id, record)` tuples, sort them stably by `(-importance,
-retrieval_count)` (Python's `sort` is stable; `List.insertionSort` is the
same stable sort), then update the returned records' usage counters both
in the returned tuples and in the store.  Candidates are always a subset
of the stored keys, so the lookup building `results` cannot fail; it is
rendered with `filterMap`. -/
def finalizeRes (s : MemoryNetwork) (now : DateTime) (cand : List String) :
    List (String × MemoryTrace) × MemoryNetwork :=
  let results := cand.filterMap (fun id =>
    (dictLookup s.memories id).map (fun m => (id, m)))
  let sorted := List.insertionSort retrievalOrder results
  let resIds := sorted.map Prod.fst
  (sorted.map (fun p => (p.1, bump p.2 now)),
   { s with memories := s.memories.map (fun p =>
      if p.1 ∈ resIds then (p.1, bump p.2 now) else p) })

/-- Query evaluation `retrieve_memories`: apply the filter cascade, then
sort and mutate the usage counters. -/
def retrieveMemories (s : MemoryNetwork) (q : MemoryQuery) (now : DateTime) :
    Except String (List (String × MemoryTrace) × MemoryNetwork) := do
  let cand ← applyFilters s q
  pure (finalizeRes s now cand)

/-! ### Concrete inputs used by the counterexamples and witnesses -/

def dt2020 : DateTime := ⟨2020, 1, 1, 0, 0, 0⟩
def dt2021 : DateTime := ⟨2021, 1, 1, 0, 0, 0⟩
def dt2023 : DateTime := ⟨2023, 1, 1, 0, 0, 0⟩
def dtX : DateTime := ⟨2024, 6, 1, 10, 0, 0⟩
def dtB : DateTime := ⟨2024, 6, 1, 10, 30, 0⟩
def dtNow : DateTime := ⟨2024, 6, 1, 11, 0, 0⟩

/-- Record stored first and evicted by the third insertion. -/
def trA : MemoryTrace :=
  { content := "a", timestamp := dt2020, importance := 0, emotional_valence := -1,
    context := [("k", "a")], tags := ["ta"], retrieval_count := 0,
    last_accessed := none, associations := [] }

/-- High-importance record that forms an association with `trBold`. -/
def trX : MemoryTrace :=
  { content := "x", timestamp := dtX, importance := 9/10, emotional_valence := 1/2,
    context := [("k", "x")], tags := ["tx"], retrieval_count := 0,
    last_accessed := none, associations := [] }

/-- Similar to `trX` (same context and tag, half an hour apart): its
insertion creates the `trX`-`trBold` association edge. -/
def trBold : MemoryTrace :=
  { content := "b", timestamp := dtB, importance := 9/10, emotional_valence := 1/2,
    context := [("k", "x")], tags := ["tx"], retrieval_count := 0,
    last_accessed := none, associations := [] }

/-- Same content as `trBold` but dissimilar fields: stored when the record
count equals `trBold`'s insertion count, its generated identifier collides
with `trBold`'s and silently overwrites it. -/
def trBnew : MemoryTrace :=
  { content := "b", timestamp := dt2023, importance := 0, emotional_valence := -1,
    context := [("k", "z")], tags := ["tz"], retrieval_count := 0,
    last_accessed := none, associations := [] }

/-- Fifth insertion: pushes the store over capacity so that the
overwriting record at the collided identifier gets evicted. -/
def trC : MemoryTrace :=
  { content := "c", timestamp := dt2021, importance := 9/10, emotional_valence := 1/2,
    context := [("k", "c")], tags := ["tc"], retrieval_count := 0,
    last_accessed := none, associations := [] }

def netCap2 : MemoryNetwork := { capacity := 2 }

/-- Four insertions into a capacity-2 store: `trA`, `trX`, `trBold`
(evicting `trA`), then `trBnew`, whose identifier collides with
`trBold`'s. -/
def state4E : Except String MemoryNetwork := do
  let r1 ← storeMemory netCap2 trA dtNow
  let r2 ← storeMemory r1.2 trX dtNow
  let r3 ← storeMemory r2.2 trBold dtNow
  let r4 ← storeMemory r3.2 trBnew dtNow
  pure r4.2

def s4v : MemoryNetwork := state4E.toOption.getD netCap2

/-- The four insertions above followed by `trC`, which evicts the record
stored at the collided identifier `mem_2_b`. -/
def state5E : Except String MemoryNetwork := do
  let s4 ← state4E
  let r5 ← storeMemory s4 trC dtNow
  pure r5.2

def s5v : MemoryNetwork := state5E.toOption.getD netCap2

/-- Valence `1`, for the emotional-similarity counterexample. -/
def cmPos : MemoryTrace :=
  { content := "p", timestamp := dt2020, importance := 1/2, emotional_valence := 1,
    context := [("k", "p")], tags := [], retrieval_count := 0,
    last_accessed := none, associations := [] }

/-- Valence `-1`, for the emotional-similarity counterexample. -/
def cmNeg : MemoryTrace :=
  { content := "n", timestamp := dt2020, importance := 1/2, emotional_valence := -1,
    context := [("k", "n")], tags := [], retrieval_count := 0,
    last_accessed := none, associations := [] }

/-- Retrieval count `20`, for the eviction-score counterexample. -/
def cmEv : MemoryTrace :=
  { content := "e", timestamp := dtNow, importance := 0, emotional_valence := 0,
    context := [("k", "e")], tags := [], retrieval_count := 20,
    last_accessed := none, associations := [] }

/-- Retrieval count `5`, for the amended eviction-score witness. -/
def cmEv5 : MemoryTrace :=
  { content := "f", timestamp := dtNow, importance := 1/2, emotional_valence := 0,
    context := [("k", "f")], tags := [], retrieval_count := 5,
    last_accessed := none, associations := [] }

def emptyNet : MemoryNetwork := {}

def netCap0 : MemoryNetwork := { capacity := 0 }

/-- An inclusive time range that crosses a day boundary. -/
def dayStart : DateTime := ⟨2024, 1, 1, 23, 0, 0⟩

def dayEnd : DateTime := ⟨2024, 1, 2, 1, 0, 0⟩

def dayQuery : MemoryQuery := { time_range := some (dayStart, dayEnd) }

/-- Two-record store for the ordering and idempotence witnesses. -/
def wTr1 : MemoryTrace :=
  { content := "w one", timestamp := dtX, importance := 1/2, emotional_valence := 0,
    context := [("k", "w")], tags := ["tw"], retrieval_count := 0,
    last_accessed := none, associations := [] }

def wTr2 : MemoryTrace :=
  { content := "w two", timestamp := dtX, importance := 3/4, emotional_valence := 0,
    context := [("k", "w")], tags := ["tw"], retrieval_count := 0,
    last_accessed := none, associations := [] }

def wNet : MemoryNetwork :=
  { memories := [("w1", wTr1), ("w2", wTr2)], capacity := 10 }

def wQuery : MemoryQuery := {}

def c8run : Except String (List (String × MemoryTrace) × MemoryNetwork) :=
  retrieveMemories wNet wQuery dtNow

def c8res : List (String × MemoryTrace) := (c8run.toOption.map Prod.fst).getD []

def c8st : MemoryNetwork := (c8run.toOption.map Prod.snd).getD wNet

def c5run : Except String (String × MemoryNetwork) := storeMemory netCap0 trA dtNow

def c5id : String := (c5run.toOption.map Prod.fst).getD ""

def c5st : MemoryNetwork := (c5run.toOption.map Prod.snd).getD netCap0

/-! ## Theorems -/

/-- C1 (counterexample): the emotional similarity the code computes is
`1 - |Δv|`, not the spec's `1 - |Δv| / 2`; at valences `1` and `-1` the
code yields `-1`, the spec formula yields `0`, and the code's value lies
outside `[0, 1]`. -/
theorem c1_spec_formula_fails :
    emotionalSim cmPos cmNeg = -1 ∧
    specEmotionalSim cmPos cmNeg = 0 ∧
    emotionalSim cmPos cmNeg ≠ specEmotionalSim cmPos cmNeg ∧
    emotionalSim cmPos cmNeg < 0 := by
  with_unfolding_all decide

/-- C1 (amended): for every pair of records, the emotional similarity used
in association scoring equals `1 - |r.valence - o.valence|` (no division
by 2) and, for valences within the validated range `[-1, 1]`, lies in the
range `[-1, 1]` rather than `[0, 1]`. -/
theorem c1_emotional_similarity (m1 m2 : MemoryTrace)
    (h1 : -1 ≤ m1.emotional_valence) (h2 : m1.emotional_valence ≤ 1)
    (h3 : -1 ≤ m2.emotional_valence) (h4 : m2.emotional_valence ≤ 1) :
    emotionalSim m1 m2 = 1 - |m1.emotional_valence - m2.emotional_valence| ∧
    -1 ≤ emotionalSim m1 m2 ∧ emotionalSim m1 m2 ≤ 1 := by
  have habs : |m1.emotional_valence - m2.emotional_valence| ≤ 2 := by
    rw [abs_le]; constructor <;> linarith
  have hpos : 0 ≤ |m1.emotional_valence - m2.emotional_valence| :=
    abs_nonneg _
  refine ⟨rfl, ?_, ?_⟩ <;> unfold emotionalSim <;> linarith

/-- C1 (witness): the amended statement at the concrete records `cmPos`
and `cmNeg`. -/
theorem c1_emotional_similarity_witness :
    emotionalSim cmPos cmNeg = 1 - |cmPos.emotional_valence - cmNeg.emotional_valence| ∧
    -1 ≤ emotionalSim cmPos cmNeg ∧ emotionalSim cmPos cmNeg ≤ 1 :=
  c1_emotional_similarity cmPos cmNeg (by with_unfolding_all decide)
    (by with_unfolding_all decide) (by with_unfolding_all decide)
    (by with_unfolding_all decide)

/-- C2 (counterexample): the eviction score has no `min(retrieval_count,
10)` cap: at retrieval count `20` (importance `0`, zero age) the code
scores `0.9` while the spec formula gives `0.6`, and the retrieval-count
term is `0.6 > 0.3`. -/
theorem c2_spec_formula_fails :
    memoryScore cmEv dtNow = 9/10 ∧
    specMemoryScore cmEv dtNow = 3/5 ∧
    memoryScore cmEv dtNow ≠ specMemoryScore cmEv dtNow ∧
    (3/10 : ℚ) < ((cmEv.retrieval_count : ℚ) / 10) * (3/10) := by
  with_unfolding_all decide

/-- C2 (amended): the eviction score equals `0.4*importance +
0.3*recency_factor + 0.3*(retrieval_count/10)` with the retrieval-count
term uncapped; it coincides with the spec's `min`-capped formula whenever
`retrieval_count ≤ 10`. -/
theorem c2_eviction_score (m : MemoryTrace) (now : DateTime)
    (h : m.retrieval_count ≤ 10) :
    memoryScore m now =
      m.importance * (2/5) + (1 / (1 + secondsBetween now m.timestamp)) * (3/10) +
        ((m.retrieval_count : ℚ) / 10) * (3/10) ∧
    memoryScore m now = specMemoryScore m now := by
  refine ⟨rfl, ?_⟩
  have hc : ((m.retrieval_count : ℚ)) ≤ 10 := by exact_mod_cast h
  unfold memoryScore specMemoryScore
  rw [min_eq_left hc]
  ring

/-- C2 (witness): the amended statement at the concrete record `cmEv5`
(retrieval count 5). -/
theorem c2_eviction_score_witness :
    memoryScore cmEv5 dtNow =
      cmEv5.importance * (2/5) +
        (1 / (1 + secondsBetween dtNow cmEv5.timestamp)) * (3/10) +
        ((cmEv5.retrieval_count : ℚ) / 10) * (3/10) ∧
    memoryScore cmEv5 dtNow = specMemoryScore cmEv5 dtNow :=
  c2_eviction_score cmEv5 dtNow (by with_unfolding_all decide)

/-- C3 (code bug): with the inclusive, day-crossing time range
`2024-01-01 23:00 ≤ 2024-01-02 01:00`, `retrieve_memories` does not
complete: the temporal scan advances by `replace(hour=hour+1)`, which
raises `ValueError` at hour 23 — for every store state and clock. -/
theorem c3_day_crossing_range_fails (s : MemoryNetwork) (now : DateTime) :
    dayStart.toSec ≤ dayEnd.toSec ∧
    retrieveMemories s dayQuery now =
      Except.error "ValueError: hour must be in 0..23" := by
  refine ⟨by decide, ?_⟩
  have hscan : ∀ (idx : List (String × List String)) (acc : List String),
      temporalScan idx dayEnd dayStart acc =
        Except.error "ValueError: hour must be in 0..23" := by
    intro idx acc
    unfold temporalScan
    rw [if_pos (by decide : dayStart.toSec ≤ dayEnd.toSec)]
    exact dif_neg (by decide)
  have hfil : applyFilters s dayQuery =
      Except.error "ValueError: hour must be in 0..23" := by
    unfold applyFilters dayQuery
    dsimp only
    rw [hscan]
    rfl
  unfold retrieveMemories
  rw [hfil]
  rfl

/-- C4 (code bug): after the four insertions of `state4E` (the fourth
identifier `mem_2_b` collides with the third's and silently overwrites
it), both `mem_1_x` and `mem_2_b` are stored, `mem_1_x` lists `mem_2_b`
among its associations, but `mem_2_b` does not list `mem_1_x`: association
symmetry is broken between two stored records. -/
theorem c4_symmetry_broken :
    state4E.toOption.isSome = true ∧
    dictContains s4v.memories "mem_1_x" = true ∧
    dictContains s4v.memories "mem_2_b" = true ∧
    (dictLookup s4v.memories "mem_1_x").map MemoryTrace.associations =
      some ["mem_2_b"] ∧
    (dictLookup s4v.memories "mem_2_b").map MemoryTrace.associations =
      some ([] : List String) := by
  with_unfolding_all decide

/-- C6 (code bug): in `state5E` the record at the collided identifier
`mem_2_b` has been evicted, yet its identifier survives in temporal,
context and tag index buckets (those of the overwritten record), in the
surviving record `mem_1_x`'s association list, and in both ordered
association-strength keys. -/
theorem c6_eviction_leaves_stale_references :
    state5E.toOption.isSome = true ∧
    dictContains s5v.memories "mem_2_b" = false ∧
    "mem_2_b" ∈ dictGetD s5v.temporal_index "2024060110" [] ∧
    "mem_2_b" ∈ dictGetD s5v.context_index "k:x" [] ∧
    "mem_2_b" ∈ dictGetD s5v.tag_index "tx" [] ∧
    "mem_2_b" ∈ ((dictLookup s5v.memories "mem_1_x").map
      MemoryTrace.associations).getD [] ∧
    dictContains s5v.association_strength ("mem_2_b", "mem_1_x") = true ∧
    dictContains s5v.association_strength ("mem_1_x", "mem_2_b") = true := by
  with_unfolding_all decide

/-- C10 (code bug): in `state5E` the stored record `mem_1_x` still lists
the evicted identifier `mem_2_b` in its associations, and the
association-strength map still has a key mentioning `mem_2_b`, so stored
references are not confined to currently present records. -/
theorem c10_dangling_identifier :
    state5E.toOption.isSome = true ∧
    dictContains s5v.memories "mem_1_x" = true ∧
    "mem_2_b" ∈ ((dictLookup s5v.memories "mem_1_x").map
      MemoryTrace.associations).getD [] ∧
    dictContains s5v.memories "mem_2_b" = false ∧
    dictContains s5v.association_strength ("mem_1_x", "mem_2_b") = true := by
  with_unfolding_all decide

/-- C7: storing an invalid record — empty content, importance outside
`[0,1]`, or valence outside `[-1,1]` — fails with a validation error
before any mutation; since the attempt returns no new state, the store the
caller holds is exactly its prior state. -/
theorem c7_invalid_record_rejected (s : MemoryNetwork) (now : DateTime)
    (content : String) (ts : DateTime) (imp val : ℚ)
    (ctx : List (String × String)) (tags : List String)
    (h : content = "" ∨ imp < 0 ∨ 1 < imp ∨ val < -1 ∨ 1 < val) :
    ∃ e, storeAttempt s now content ts imp val ctx tags = Except.error e := by
  have hmk : ∃ e, mkMemoryTrace content ts imp val ctx tags = Except.error e := by
    unfold mkMemoryTrace
    by_cases h1 : content = ""
    · exact ⟨_, by rw [if_pos h1]⟩
    · rw [if_neg h1]
      by_cases h2 : 0 ≤ imp ∧ imp ≤ 1
      · rw [if_neg (not_not_intro h2)]
        by_cases h3 : -1 ≤ val ∧ val ≤ 1
        · exfalso
          rcases h with h | h | h | h | h
          · exact h1 h
          · exact absurd h2.1 (not_le.mpr h)
          · exact absurd h2.2 (not_le.mpr h)
          · exact absurd h3.1 (not_le.mpr h)
          · exact absurd h3.2 (not_le.mpr h)
        · exact ⟨_, by rw [if_pos h3]⟩
      · exact ⟨_, by rw [if_pos h2]⟩
  obtain ⟨e, he⟩ := hmk
  refine ⟨e, ?_⟩
  unfold storeAttempt
  rw [he]
  rfl

/-- C7 (witness): the rejection at a concrete empty-content record. -/
theorem c7_invalid_record_rejected_witness :
    ∃ e, storeAttempt emptyNet dtNow "" dt2020 (1/2) 0 [("k", "v")] ["t"] =
      Except.error e :=
  c7_invalid_record_rejected emptyNet dtNow "" dt2020 (1/2) 0 [("k", "v")] ["t"]
    (Or.inl rfl)

/-! ### Capacity invariant (C5) -/

theorem exceptPure {β : Type} (a : β) : (pure a : Except String β) = Except.ok a :=
  rfl

theorem exceptOkBind {α β : Type} (a : α) (f : α → Except String β) :
    (Except.ok a >>= f : Except String β) = f a :=
  rfl

theorem exceptErrorBind {α β : Type} (e : String) (f : α → Except String β) :
    (Except.error e >>= f : Except String β) = Except.error e :=
  rfl

theorem length_dictInsert_of_mem {κ β : Type} [DecidableEq κ]
    (l : List (κ × β)) (k : κ) (v : β) (h : (dictLookup l k).isSome = true) :
    (dictInsert l k v).length = l.length := by
  induction l with
  | nil => simp [dictLookup] at h
  | cons p t ih =>
    obtain ⟨k1, v1⟩ := p
    by_cases hk : k1 = k
    · simp [dictInsert, hk]
    · rw [dictLookup, if_neg hk] at h
      simp [dictInsert, hk, ih h]

theorem length_dictDelete {κ β : Type} [DecidableEq κ]
    (l l2 : List (κ × β)) (k : κ) (h : dictDelete l k = Except.ok l2) :
    l2.length + 1 = l.length := by
  induction l generalizing l2 with
  | nil => simp [dictDelete] at h
  | cons p t ih =>
    obtain ⟨k1, v1⟩ := p
    rw [dictDelete] at h
    by_cases hk : k1 = k
    · rw [if_pos hk] at h
      obtain rfl : t = l2 := by injection h
      simp
    · rw [if_neg hk] at h
      cases hd : dictDelete t k with
      | error e => rw [hd] at h; simp [Except.map] at h
      | ok t2 =>
        rw [hd] at h
        obtain rfl : (k1, v1) :: t2 = l2 := by
          simpa [Except.map] using h
        have := ih t2 hd
        simp only [List.length_cons]
        omega

theorem removeAssocStep_memories (mid : String) (s s2 : MemoryNetwork)
    (oid : String) (h : removeAssocStep mid s oid = Except.ok s2) :
    s2.memories.length = s.memories.length ∧ s2.capacity = s.capacity := by
  unfold removeAssocStep at h
  cases hl : dictLookup s.memories oid with
  | none =>
    rw [hl] at h
    dsimp only at h
    rw [exceptPure] at h
    obtain rfl : s = s2 := by injection h
    exact ⟨rfl, rfl⟩
  | some om =>
    rw [hl] at h
    dsimp only at h
    cases hr : listRemoveFirst om.associations mid with
    | error e =>
      rw [hr, exceptErrorBind] at h
      exact Except.noConfusion h
    | ok na =>
      simp only [hr, exceptOkBind] at h
      cases hd1 : dictDelete s.association_strength (mid, oid) with
      | error e =>
        rw [hd1, exceptErrorBind] at h
        exact Except.noConfusion h
      | ok st1 =>
        simp only [hd1, exceptOkBind] at h
        cases hd2 : dictDelete st1 (oid, mid) with
        | error e =>
          rw [hd2, exceptErrorBind] at h
          exact Except.noConfusion h
        | ok st2 =>
          simp only [hd2, exceptOkBind, exceptPure] at h
          obtain rfl : { s with
              memories := dictInsert s.memories oid { om with associations := na },
              association_strength := st2 } = s2 := by injection h
          refine ⟨?_, rfl⟩
          exact length_dictInsert_of_mem _ _ _ (by rw [hl]; rfl)

theorem foldAssoc_memories (mid : String) (ids : List String)
    (s s2 : MemoryNetwork)
    (h : ids.foldlM (removeAssocStep mid) s = Except.ok s2) :
    s2.memories.length = s.memories.length ∧ s2.capacity = s.capacity := by
  induction ids generalizing s with
  | nil =>
    rw [List.foldlM_nil, exceptPure] at h
    obtain rfl : s = s2 := by injection h
    exact ⟨rfl, rfl⟩
  | cons a t ih =>
    rw [List.foldlM_cons] at h
    cases hs : removeAssocStep mid s a with
    | error e =>
      rw [hs, exceptErrorBind] at h
      exact Except.noConfusion h
    | ok sm =>
      simp only [hs, exceptOkBind] at h
      obtain ⟨e1, e2⟩ := removeAssocStep_memories mid s sm a hs
      obtain ⟨f1, f2⟩ := ih sm h
      exact ⟨f1.trans e1, f2.trans e2⟩

theorem deindexAll_fields (s : MemoryNetwork) (mid : String) (m : MemoryTrace) :
    (deindexAll s mid m).memories = s.memories ∧
      (deindexAll s mid m).capacity = s.capacity :=
  ⟨rfl, rfl⟩

theorem removeMemory_length (s s2 : MemoryNetwork) (mid : String)
    (h : removeMemory s mid = Except.ok s2) :
    s2.memories.length + 1 = s.memories.length ∧ s2.capacity = s.capacity := by
  unfold removeMemory at h
  cases hl : dictLookup s.memories mid with
  | none =>
    rw [hl] at h
    exact Except.noConfusion h
  | some m =>
    rw [hl] at h
    dsimp only at h
    cases hf : m.associations.foldlM (removeAssocStep mid) (deindexAll s mid m) with
    | error e =>
      rw [hf, exceptErrorBind] at h
      exact Except.noConfusion h
    | ok s3 =>
      simp only [hf, exceptOkBind] at h
      cases hd : dictDelete s3.memories mid with
      | error e =>
        rw [hd, exceptErrorBind] at h
        exact Except.noConfusion h
      | ok mems =>
        simp only [hd, exceptOkBind, exceptPure] at h
        obtain rfl : { s3 with memories := mems } = s2 := by injection h
        obtain ⟨f1, f2⟩ := foldAssoc_memories mid m.associations _ s3 hf
        have hd1 := length_dictDelete s3.memories mems mid hd
        constructor
        · show mems.length + 1 = s.memories.length
          rw [hd1, f1]
          exact congrArg List.length (deindexAll_fields s mid m).1
        · exact f2.trans ((deindexAll_fields s mid m).2)

theorem foldRemove_length (victims : List (String × ℚ)) (s s2 : MemoryNetwork)
    (h : victims.foldlM (fun s p => removeMemory s p.1) s = Except.ok s2) :
    s2.memories.length + victims.length = s.memories.length ∧
      s2.capacity = s.capacity := by
  induction victims generalizing s with
  | nil =>
    rw [List.foldlM_nil, exceptPure] at h
    obtain rfl : s = s2 := by injection h
    exact ⟨rfl, rfl⟩
  | cons a t ih =>
    rw [List.foldlM_cons] at h
    cases hs : removeMemory s a.1 with
    | error e =>
      rw [hs] at h
      rw [exceptErrorBind] at h
      exact Except.noConfusion h
    | ok sm =>
      simp only [hs, exceptOkBind] at h
      obtain ⟨e1, e2⟩ := removeMemory_length s sm a.1 hs
      obtain ⟨f1, f2⟩ := ih sm h
      constructor
      · simp only [List.length_cons]
        omega
      · exact f2.trans e2

theorem manageCapacity_length (s s2 : MemoryNetwork) (now : DateTime)
    (h : manageCapacity s now = Except.ok s2) :
    s2.memories.length ≤ s.capacity ∧ s2.capacity = s.capacity := by
  unfold manageCapacity at h
  by_cases hc : s.memories.length > s.capacity
  · rw [if_pos hc] at h
    obtain ⟨h1, h2⟩ := foldRemove_length _ _ _ h
    rw [List.length_take, List.length_insertionSort, List.length_map] at h1
    constructor
    · omega
    · exact h2
  · rw [if_neg hc] at h
    rw [exceptPure] at h
    obtain rfl : s = s2 := by injection h
    exact ⟨Nat.le_of_not_lt hc, rfl⟩

theorem createAssociations_capacity (s : MemoryNetwork) (id : String) :
    (createAssociations s id).capacity = s.capacity := by
  unfold createAssociations
  cases dictLookup s.memories id <;> rfl

theorem storePre_capacity (s : MemoryNetwork) (m : MemoryTrace) :
    (storePre s m).capacity = s.capacity := by
  unfold storePre
  rw [createAssociations_capacity]
  rfl

/-- C5: every `store_memory` call that completes leaves the record count
at or below the configured capacity — regardless of the prior state, the
capacity manager evicts exactly `count - capacity` records whenever the
count exceeds the capacity. -/
theorem c5_capacity_invariant (s : MemoryNetwork) (m : MemoryTrace)
    (now : DateTime) (mid : String) (s2 : MemoryNetwork)
    (h : storeMemory s m now = Except.ok (mid, s2)) :
    s2.memories.length ≤ s.capacity := by
  unfold storeMemory at h
  cases hm : manageCapacity (storePre s m) now with
  | error e =>
    rw [hm, exceptErrorBind] at h
    exact Except.noConfusion h
  | ok s3 =>
    simp only [hm, exceptOkBind, exceptPure] at h
    obtain ⟨-, rfl⟩ : memId s.memories.length m.content = mid ∧ s3 = s2 := by
      injection h with h2
      exact ⟨congrArg Prod.fst h2, congrArg Prod.snd h2⟩
    obtain ⟨h1, -⟩ := manageCapacity_length _ _ _ hm
    rwa [storePre_capacity] at h1

/-- C5 (witness): a store into a capacity-0 network completes and the
resulting record count is within capacity. -/
theorem c5_capacity_invariant_witness : c5st.memories.length ≤ netCap0.capacity :=
  c5_capacity_invariant netCap0 trA dtNow c5id c5st (by with_unfolding_all rfl)

/-! ### Result ordering (C8) -/

instance : IsTrans (String × MemoryTrace) retrievalOrder := by
  constructor
  intro a b c hab hbc
  unfold retrievalOrder at *
  rcases hab with h1 | ⟨h1, h2⟩ <;> rcases hbc with h3 | ⟨h3, h4⟩
  · exact Or.inl (h3.trans h1)
  · exact Or.inl (h3 ▸ h1)
  · exact Or.inl (by rw [h1]; exact h3)
  · exact Or.inr ⟨h1.trans h3, h4.trans h2⟩

instance : IsTotal (String × MemoryTrace) retrievalOrder := by
  constructor
  intro a b
  unfold retrievalOrder
  rcases lt_trichotomy a.2.importance b.2.importance with h | h | h
  · exact Or.inr (Or.inl h)
  · rcases le_total b.2.retrieval_count a.2.retrieval_count with h2 | h2
    · exact Or.inl (Or.inr ⟨h, h2⟩)
    · exact Or.inr (Or.inr ⟨h.symm, h2⟩)
  · exact Or.inl (Or.inl h)

theorem retrievalOrder_bump_iff (now : DateTime) (a b : String × MemoryTrace) :
    retrievalOrder (a.1, bump a.2 now) (b.1, bump b.2 now) ↔ retrievalOrder a b := by
  unfold retrievalOrder
  constructor
  · rintro (h | ⟨h1, h2⟩)
    · exact Or.inl h
    · refine Or.inr ⟨h1, ?_⟩
      have h3 : b.2.retrieval_count + 1 ≤ a.2.retrieval_count + 1 := h2
      omega
  · rintro (h | ⟨h1, h2⟩)
    · exact Or.inl h
    · refine Or.inr ⟨h1, ?_⟩
      show b.2.retrieval_count + 1 ≤ a.2.retrieval_count + 1
      omega

theorem sorted_finalizeRes (s : MemoryNetwork) (now : DateTime)
    (cand : List String) : List.Sorted retrievalOrder (finalizeRes s now cand).1 := by
  unfold finalizeRes
  dsimp only
  exact List.Pairwise.map _
    (fun a b hab => (retrievalOrder_bump_iff now a b).mpr hab)
    (List.sorted_insertionSort retrievalOrder _)

/-- C8: every result list a completed `retrieve_memories` call returns is
sorted by importance descending, then retrieval count descending (the
comparison `retrievalOrder` mirrors the sort key `(-importance,
-retrieval_count)`); the remaining tie-break and hence the output order is
a deterministic function of the store state, since `retrieveMemories` is a
pure function. -/
theorem c8_results_sorted (s : MemoryNetwork) (q : MemoryQuery) (now : DateTime)
    (res : List (String × MemoryTrace)) (s2 : MemoryNetwork)
    (h : retrieveMemories s q now = Except.ok (res, s2)) :
    List.Sorted retrievalOrder res := by
  unfold retrieveMemories at h
  cases ha : applyFilters s q with
  | error e =>
    rw [ha, exceptErrorBind] at h
    exact Except.noConfusion h
  | ok cand =>
    simp only [ha, exceptOkBind, exceptPure] at h
    obtain h2 : finalizeRes s now cand = (res, s2) := by injection h
    have h3 := sorted_finalizeRes s now cand
    rw [h2] at h3
    exact h3

/-- C8 (witness): the concrete two-record retrieval is sorted. -/
theorem c8_results_sorted_witness : List.Sorted retrievalOrder c8res :=
  c8_results_sorted wNet wQuery dtNow c8res c8st (by with_unfolding_all rfl)

/-! ### Query idempotence modulo counters (C9) -/

theorem dictLookup_entry_bump (l : List (String × MemoryTrace)) (S : List String)
    (now : DateTime) (k : String) :
    dictLookup (l.map (fun p => if p.1 ∈ S then (p.1, bump p.2 now) else p)) k =
      (dictLookup l k).map (fun m => if k ∈ S then bump m now else m) := by
  induction l with
  | nil => rfl
  | cons p t ih =>
    obtain ⟨k1, v⟩ := p
    rw [List.map_cons]
    by_cases hS : k1 ∈ S
    · rw [if_pos hS]
      simp only [dictLookup]
      by_cases hk : k1 = k
      · subst hk
        simp [hS]
      · simp only [if_neg hk]
        exact ih
    · rw [if_neg hS]
      simp only [dictLookup]
      by_cases hk : k1 = k
      · subst hk
        simp [hS]
      · simp only [if_neg hk]
        exact ih

theorem map_fst_filter_entry_bump (l : List (String × MemoryTrace))
    (S : List String) (now : DateTime) (pred : String × MemoryTrace → Bool)
    (hpred : ∀ p : String × MemoryTrace, pred (p.1, bump p.2 now) = pred p) :
    ((l.map (fun p => if p.1 ∈ S then (p.1, bump p.2 now) else p)).filter
        pred).map Prod.fst =
      (l.filter pred).map Prod.fst := by
  induction l with
  | nil => rfl
  | cons p t ih =>
    rw [List.map_cons, List.filter_cons]
    by_cases hS : p.1 ∈ S
    · rw [if_pos hS, List.filter_cons, hpred p]
      by_cases hp : pred p = true <;> simp [hp, ih]
    · rw [if_neg hS, List.filter_cons]
      by_cases hp : pred p = true <;> simp [hp, ih]

theorem allIds_entry_bump (l : List (String × MemoryTrace)) (S : List String)
    (now : DateTime) :
    allIds (l.map (fun p => if p.1 ∈ S then (p.1, bump p.2 now) else p)) =
      allIds l := by
  unfold allIds
  rw [List.map_map]
  apply List.map_congr_left
  intro p _
  by_cases hS : p.1 ∈ S <;> simp [hS]

theorem contentMatches_entry_bump (l : List (String × MemoryTrace))
    (S : List String) (now : DateTime) (c : String) :
    contentMatches (l.map (fun p => if p.1 ∈ S then (p.1, bump p.2 now) else p))
        c =
      contentMatches l c := by
  unfold contentMatches
  exact map_fst_filter_entry_bump l S now _ (fun p => rfl)

theorem importanceMatches_entry_bump (l : List (String × MemoryTrace))
    (S : List String) (now : DateTime) (t : ℚ) :
    importanceMatches
        (l.map (fun p => if p.1 ∈ S then (p.1, bump p.2 now) else p)) t =
      importanceMatches l t := by
  unfold importanceMatches
  exact map_fst_filter_entry_bump l S now _ (fun p => rfl)

/-- The filter cascade only reads record keys, contents and importances —
none of which the counter update changes — plus the four indices, which a
query never mutates. -/
theorem applyFilters_entry_bump (s : MemoryNetwork) (q : MemoryQuery)
    (S : List String) (now : DateTime) :
    applyFilters { s with memories := (s.memories.map
        (fun p => if p.1 ∈ S then (p.1, bump p.2 now) else p)) } q =
      applyFilters s q := by
  unfold applyFilters
  dsimp only
  rw [allIds_entry_bump s.memories S now]
  simp only [contentMatches_entry_bump s.memories S now,
    importanceMatches_entry_bump s.memories S now]

theorem filterMap_lookup_entry_bump (l : List (String × MemoryTrace))
    (S : List String) (now : DateTime) (cand : List String) :
    cand.filterMap (fun id =>
        (dictLookup (l.map (fun p => if p.1 ∈ S then (p.1, bump p.2 now) else p))
            id).map (fun m => (id, m))) =
      (cand.filterMap (fun id => (dictLookup l id).map (fun m => (id, m)))).map
        (fun p => if p.1 ∈ S then (p.1, bump p.2 now) else p) := by
  induction cand with
  | nil => rfl
  | cons a t ih =>
    rw [List.filterMap_cons, List.filterMap_cons, dictLookup_entry_bump]
    cases h : dictLookup l a with
    | none => simpa using ih
    | some m =>
      by_cases hS : a ∈ S <;> simp [hS, ih]

theorem orderedInsert_map_iff (f : (String × MemoryTrace) → (String × MemoryTrace))
    (hf : ∀ a b, retrievalOrder (f a) (f b) ↔ retrievalOrder a b)
    (a : String × MemoryTrace) (l : List (String × MemoryTrace)) :
    (l.map f).orderedInsert retrievalOrder (f a) =
      (l.orderedInsert retrievalOrder a).map f := by
  induction l with
  | nil => rfl
  | cons b t ih =>
    rw [List.map_cons, List.orderedInsert, List.orderedInsert]
    by_cases h : retrievalOrder a b
    · rw [if_pos ((hf a b).mpr h), if_pos h, List.map_cons, List.map_cons]
    · rw [if_neg (fun hc => h ((hf a b).mp hc)), if_neg h, List.map_cons, ih]

theorem insertionSort_map_iff
    (f : (String × MemoryTrace) → (String × MemoryTrace))
    (hf : ∀ a b, retrievalOrder (f a) (f b) ↔ retrievalOrder a b)
    (l : List (String × MemoryTrace)) :
    List.insertionSort retrievalOrder (l.map f) =
      (List.insertionSort retrievalOrder l).map f := by
  induction l with
  | nil => rfl
  | cons a t ih =>
    rw [List.map_cons, List.insertionSort, List.insertionSort, ih,
      orderedInsert_map_iff f hf]

/-- Running the result construction a second time on the same candidate
set (over the counter-updated store) yields the same identifier sequence. -/
theorem finalize_fst_stable (s : MemoryNetwork) (now1 now2 : DateTime)
    (cand : List String) :
    ((finalizeRes (finalizeRes s now1 cand).2 now2 cand).1).map Prod.fst =
      ((finalizeRes s now1 cand).1).map Prod.fst := by
  unfold finalizeRes
  dsimp only
  rw [filterMap_lookup_entry_bump]
  set results1 := cand.filterMap (fun id =>
    (dictLookup s.memories id).map (fun m => (id, m))) with hres
  set R := (List.insertionSort retrievalOrder results1).map Prod.fst with hR
  have hmem : ∀ p ∈ results1, p.1 ∈ R := by
    intro p hp
    rw [hR]
    exact List.mem_map_of_mem Prod.fst
      (((List.perm_insertionSort retrievalOrder results1).mem_iff).mpr hp)
  have hcongr : results1.map
        (fun p => if p.1 ∈ R then (p.1, bump p.2 now1) else p) =
      results1.map (fun p => (p.1, bump p.2 now1)) := by
    apply List.map_congr_left
    intro p hp
    rw [if_pos (hmem p hp)]
  rw [hcongr, insertionSort_map_iff (fun p => (p.1, bump p.2 now1))
    (fun a b => retrievalOrder_bump_iff now1 a b)]
  simp [List.map_map, Function.comp]

/-- C9: a query run immediately again, with no intervening store or
eviction, succeeds and returns the same identifier sequence (hence the
same identifier set), even though the first run incremented
`retrieval_count` and set `last_accessed` on every returned record. -/
theorem c9_repeated_query (s : MemoryNetwork) (q : MemoryQuery)
    (now1 now2 : DateTime) (r1 : List (String × MemoryTrace))
    (s1 : MemoryNetwork)
    (h : retrieveMemories s q now1 = Except.ok (r1, s1)) :
    ∃ r2 s2, retrieveMemories s1 q now2 = Except.ok (r2, s2) ∧
      r1.map Prod.fst = r2.map Prod.fst := by
  unfold retrieveMemories at h ⊢
  cases ha : applyFilters s q with
  | error e =>
    rw [ha, exceptErrorBind] at h
    exact Except.noConfusion h
  | ok cand =>
    simp only [ha, exceptOkBind, exceptPure] at h
    obtain h2 : finalizeRes s now1 cand = (r1, s1) := by injection h
    have hs1 : s1 = (finalizeRes s now1 cand).2 := by rw [h2]
    have hr1 : r1 = (finalizeRes s now1 cand).1 := by rw [h2]
    subst hs1
    have haf : applyFilters (finalizeRes s now1 cand).2 q = Except.ok cand :=
      (applyFilters_entry_bump s q _ now1).trans ha
    refine ⟨(finalizeRes (finalizeRes s now1 cand).2 now2 cand).1,
      (finalizeRes (finalizeRes s now1 cand).2 now2 cand).2, ?_, ?_⟩
    · rw [haf, exceptOkBind, exceptPure]
    · rw [hr1]
      exact (finalize_fst_stable s now1 now2 cand).symm

/-- C9 (witness): the concrete two-record retrieval repeated. -/
theorem c9_repeated_query_witness :
    ∃ r2 s2, retrieveMemories c8st wQuery dtNow = Except.ok (r2, s2) ∧
      c8res.map Prod.fst = r2.map Prod.fst :=
  c9_repeated_query wNet wQuery dtNow dtNow c8res c8st
    (by with_unfolding_all rfl)

end MemorySystem
